import Mathlib

/-!
Shallow embedding of the trading decision engine (`src/trading_strategy.py`)
and the position ledger (`src/position_tracker.py`) of the Polymarket
BTC-15min bot.  Python floats are modelled as rationals (ℚ), dictionaries
keyed by the outcome strings as functions out of a two-valued `Outcome`
type, `None` as `Option.none`, and `logger.warning` calls as a warning
counter in the ledger state.  Timestamps that are serialized are modelled
by a broken-down `DateTime` record together with executable ISO-8601
printing and parsing over `List Char`.
-/

/-- The two outcome labels of the binary market: the strings `'UP'` and
`'DOWN'` of the source. -/
inductive Outcome where
  | UP : Outcome
  | DOWN : Outcome
deriving DecidableEq, Repr

/-- Embedding of the dataclass `PriceState` of `trading_strategy.py`:
per-outcome tracked current/low/high price, last update time and the
one-shot entry latch `entry_condition_met`. -/
structure PriceState where
  current_price : ℚ
  low_price : ℚ
  high_price : ℚ
  last_update : ℕ
  entry_condition_met : Bool := false
deriving DecidableEq, Repr

/-- Embedding of the `TradingStrategy` object state of
`trading_strategy.py`: the three configuration thresholds, the
`price_states` dict (a partial map from outcomes), and the position
tracking fields. -/
structure TradingStrategy where
  entry_threshold_percent : ℚ
  entry_price_threshold : ℚ
  exit_reversal_percent : ℚ
  price_states : Outcome → Option PriceState
  current_position : Option Outcome
  position_entry_price : Option ℚ
  position_high : Option ℚ

/-- The body of the per-outcome update in `update_prices`: initialize the
state on first observation (low = high = current = observed price, latch
false), otherwise set the current price and fold the new price into the
running low and high. -/
def updateOutcome (ps : Option PriceState) (p : ℚ) (t : ℕ) : PriceState :=
  match ps with
  | none => { current_price := p, low_price := p, high_price := p, last_update := t }
  | some s =>
      { s with
        current_price := p
        last_update := t
        low_price := if p < s.low_price then p else s.low_price
        high_price := if p > s.high_price then p else s.high_price }

/-- Embedding of `TradingStrategy.update_prices`: the price snapshot is a
partial map (a key may be missing, in which case that outcome is skipped);
both outcomes are updated, then `position_high` is raised to the held
outcome's current price when a position is open and its price is present. -/
def update_prices (s : TradingStrategy) (prices : Outcome → Option ℚ) (t : ℕ) :
    TradingStrategy :=
  let step := fun (ps : Outcome → Option PriceState) (o : Outcome) =>
    match prices o with
    | none => ps
    | some p => fun o' => if o' = o then some (updateOutcome (ps o) p t) else ps o'
  let ps2 := step (step s.price_states Outcome.UP) Outcome.DOWN
  let ph :=
    match s.current_position with
    | none => s.position_high
    | some pos =>
        match prices pos with
        | none => s.position_high
        | some cp =>
            match s.position_high with
            | none => some cp
            | some h => if cp > h then some cp else some h
  { s with price_states := ps2, position_high := ph }

/-- Set the one-shot latch `entry_condition_met` of outcome `o` (the
`state.entry_condition_met = True` assignment in `check_entry_signal`). -/
def setLatch (s : TradingStrategy) (o : Outcome) : TradingStrategy :=
  { s with
    price_states := fun o' =>
      if o' = o then (s.price_states o').map (fun st => { st with entry_condition_met := true })
      else s.price_states o' }

/-- The per-outcome body of the loop in `check_entry_signal`: condition 1
(percentage rise from the low, guarded by `low_price > 0` and the latch)
fires first and sets the latch; otherwise condition 2 (absolute price
threshold, also requiring the latch unset) fires without touching the
latch.  `none` means neither rule fired and the loop continues. -/
def checkOutcome (s : TradingStrategy) (o : Outcome) :
    Option (Outcome × TradingStrategy) :=
  match s.price_states o with
  | none => none
  | some st =>
      if st.low_price > 0 ∧
          ((st.current_price - st.low_price) / st.low_price) * 100 ≥ s.entry_threshold_percent ∧
          st.entry_condition_met = false then
        some (o, setLatch s o)
      else if st.entry_condition_met = false ∧ st.current_price ≥ s.entry_price_threshold then
        some (o, s)
      else none

/-- Embedding of `TradingStrategy.check_entry_signal`: returns `none`
immediately when a position is open, otherwise scans the outcomes in the
fixed order UP, DOWN and returns the first that fires together with the
(possibly latched) new strategy state. -/
def check_entry_signal (s : TradingStrategy) : Option Outcome × TradingStrategy :=
  match s.current_position with
  | some _ => (none, s)
  | none =>
      match checkOutcome s Outcome.UP with
      | some (o, s') => (some o, s')
      | none =>
          match checkOutcome s Outcome.DOWN with
          | some (o, s') => (some o, s')
          | none => (none, s)

/-- Embedding of `TradingStrategy.check_exit_signal`: false when no
position is open, when the held outcome has no price state, or when
`position_high` is absent or not positive (the Python truthiness test
`if self.position_high and self.position_high > 0`); otherwise true
exactly when the percentage drop from `position_high` reaches
`exit_reversal_percent`. -/
def check_exit_signal (s : TradingStrategy) : Bool :=
  match s.current_position with
  | none => false
  | some pos =>
      match s.price_states pos with
      | none => false
      | some st =>
          match s.position_high with
          | none => false
          | some ph =>
              if ph ≠ 0 ∧ ph > 0 then
                decide (((ph - st.current_price) / ph) * 100 ≥ s.exit_reversal_percent)
              else false

/-- Embedding of `TradingStrategy.enter_position`: record the held outcome
and seed `position_high` with the entry price. -/
def enter_position (s : TradingStrategy) (o : Outcome) (entry_price : ℚ) :
    TradingStrategy :=
  { s with
    current_position := some o
    position_entry_price := some entry_price
    position_high := some entry_price }

/-- Inverse outcome, `'DOWN' if self.current_position == 'UP' else 'UP'`. -/
def inverse : Outcome → Outcome
  | Outcome.UP => Outcome.DOWN
  | Outcome.DOWN => Outcome.UP

/-- Embedding of `TradingStrategy.exit_position`: when a position is open,
clear the three position-tracking fields and return the inverse outcome;
otherwise return `none` and leave the state untouched. -/
def exit_position (s : TradingStrategy) : Option Outcome × TradingStrategy :=
  match s.current_position with
  | none => (none, s)
  | some pos =>
      (some (inverse pos),
        { s with
          current_position := none
          position_entry_price := none
          position_high := none })

/-- Embedding of `TradingStrategy.reset_tracking`: clear the price-state
dict and the position fields. -/
def reset_tracking (s : TradingStrategy) : TradingStrategy :=
  { s with
    price_states := fun _ => none
    current_position := none
    position_entry_price := none
    position_high := none }

/-- The outcome `o` is tracked with its one-shot latch set. -/
def latched (s : TradingStrategy) (o : Outcome) : Prop :=
  ∃ st, s.price_states o = some st ∧ st.entry_condition_met = true

/-- The strategy operations that may happen between two `reset_tracking`
calls: a price update, an entry-signal check (which may set a latch), an
entry and an exit. -/
inductive StratOp where
  | update (prices : Outcome → Option ℚ) (t : ℕ) : StratOp
  | checkEntry : StratOp
  | enter (o : Outcome) (p : ℚ) : StratOp
  | exitPos : StratOp

/-- Apply one strategy operation to the state, discarding returned values. -/
def applyOp (s : TradingStrategy) : StratOp → TradingStrategy
  | StratOp.update prices t => update_prices s prices t
  | StratOp.checkEntry => (check_entry_signal s).2
  | StratOp.enter o p => enter_position s o p
  | StratOp.exitPos => (exit_position s).2

/-- Apply a sequence of strategy operations left to right. -/
def applyOps (s : TradingStrategy) (ops : List StratOp) : TradingStrategy :=
  ops.foldl applyOp s

/-- Apply a sequence of `update_prices` calls left to right. -/
def applyUpdates (s : TradingStrategy) (l : List ((Outcome → Option ℚ) × ℕ)) :
    TradingStrategy :=
  l.foldl (fun s pr => update_prices s pr.1 pr.2) s

/-- The low/current/high sandwich invariant of every tracked outcome. -/
def ExtremumInv (s : TradingStrategy) : Prop :=
  ∀ o st, s.price_states o = some st →
    st.low_price ≤ st.current_price ∧ st.current_price ≤ st.high_price

/-- A broken-down timestamp, modelling a Python naive `datetime`. -/
structure DateTime where
  year : ℕ
  month : ℕ
  day : ℕ
  hour : ℕ
  minute : ℕ
  second : ℕ
  microsecond : ℕ
deriving DecidableEq, Repr

/-- Field bounds guaranteed by Python's `datetime` (we only need the digit
counts used by `isoformat`): four-digit year, two-digit month, day, hour,
minute and second, six-digit microsecond. -/
def ValidDateTime (d : DateTime) : Prop :=
  d.year < 10000 ∧ d.month < 100 ∧ d.day < 100 ∧ d.hour < 100 ∧
    d.minute < 100 ∧ d.second < 100 ∧ d.microsecond < 1000000

instance (d : DateTime) : Decidable (ValidDateTime d) := by
  unfold ValidDateTime; infer_instance

/-- The decimal digit character for `n` (meaningful for `n < 10`). -/
def digitChar (n : ℕ) : Char := Char.ofNat (48 + n)

/-- Two-digit zero-padded decimal rendering, `'%02d'`. -/
def pad2 (n : ℕ) : List Char := [digitChar (n / 10), digitChar (n % 10)]

/-- Four-digit zero-padded decimal rendering, `'%04d'`. -/
def pad4 (n : ℕ) : List Char :=
  [digitChar (n / 1000), digitChar (n / 100 % 10), digitChar (n / 10 % 10), digitChar (n % 10)]

/-- Six-digit zero-padded decimal rendering, `'%06d'`. -/
def pad6 (n : ℕ) : List Char :=
  [digitChar (n / 100000), digitChar (n / 10000 % 10), digitChar (n / 1000 % 10),
    digitChar (n / 100 % 10), digitChar (n / 10 % 10), digitChar (n % 10)]

/-- Embedding of `datetime.isoformat()` for a naive datetime:
`YYYY-MM-DDTHH:MM:SS` followed by `.ffffff` exactly when the microsecond
field is nonzero. -/
def isoformat (d : DateTime) : List Char :=
  pad4 d.year ++ '-' :: pad2 d.month ++ '-' :: pad2 d.day ++ 'T' :: pad2 d.hour ++
    ':' :: pad2 d.minute ++ ':' :: pad2 d.second ++
    (if d.microsecond = 0 then [] else '.' :: pad6 d.microsecond)

/-- Parse two decimal digit characters. -/
def parse2 (c1 c2 : Char) : Option ℕ :=
  if c1.isDigit ∧ c2.isDigit then
    some ((c1.toNat - 48) * 10 + (c2.toNat - 48))
  else none

/-- Parse four decimal digit characters. -/
def parse4 (c1 c2 c3 c4 : Char) : Option ℕ :=
  if c1.isDigit ∧ c2.isDigit ∧ c3.isDigit ∧ c4.isDigit then
    some ((c1.toNat - 48) * 1000 + (c2.toNat - 48) * 100 + (c3.toNat - 48) * 10 +
      (c4.toNat - 48))
  else none

/-- Parse six decimal digit characters. -/
def parse6 (c1 c2 c3 c4 c5 c6 : Char) : Option ℕ :=
  if c1.isDigit ∧ c2.isDigit ∧ c3.isDigit ∧ c4.isDigit ∧ c5.isDigit ∧ c6.isDigit then
    some ((c1.toNat - 48) * 100000 + (c2.toNat - 48) * 10000 + (c3.toNat - 48) * 1000 +
      (c4.toNat - 48) * 100 + (c5.toNat - 48) * 10 + (c6.toNat - 48))
  else none

/-- Parse the optional fractional-seconds tail of an ISO-8601 timestamp:
empty, or a dot followed by six digits. -/
def parseFrac : List Char → Option ℕ
  | [] => some 0
  | [cd, u1, u2, u3, u4, u5, u6] =>
      if cd = '.' then parse6 u1 u2 u3 u4 u5 u6 else none
  | _ => none

/-- Embedding of `datetime.fromisoformat` restricted to the fixed-width
shapes produced by `isoformat`: positional digits with checked
separators. -/
def fromisoformat (s : List Char) : Option DateTime :=
  match s with
  | y1 :: y2 :: y3 :: y4 :: c5 :: o1 :: o2 :: c8 :: d1 :: d2 :: c11 :: h1 :: h2 ::
      c14 :: i1 :: i2 :: c17 :: s1 :: s2 :: rest =>
      if c5 = '-' ∧ c8 = '-' ∧ c11 = 'T' ∧ c14 = ':' ∧ c17 = ':' then
        match parse4 y1 y2 y3 y4, parse2 o1 o2, parse2 d1 d2, parse2 h1 h2,
            parse2 i1 i2, parse2 s1 s2, parseFrac rest with
        | some y, some mo, some dy, some hr, some mi, some se, some mu =>
            some ⟨y, mo, dy, hr, mi, se, mu⟩
        | _, _, _, _, _, _, _ => none
      else none
  | _ => none

/-- Embedding of the dataclass `Position` of `position_tracker.py`. -/
structure Position where
  outcome : Outcome
  entry_price : ℚ
  size : ℚ
  entry_time : DateTime
  entry_order_id : Option String := none
  exit_price : Option ℚ := none
  exit_time : Option DateTime := none
  exit_order_id : Option String := none
  pnl : Option ℚ := none
deriving DecidableEq, Repr

/-- Field bounds for a serializable position: both timestamps lie in the
ranges `datetime` guarantees. -/
def ValidPosition (p : Position) : Prop :=
  ValidDateTime p.entry_time ∧ ∀ t ∈ p.exit_time, ValidDateTime t

/-- Embedding of the dict produced by `Position.to_dict` (and of one JSON
record of the history file): identical to `Position` except that the
timestamps are ISO-8601 character strings. -/
structure PositionDict where
  outcome : Outcome
  entry_price : ℚ
  size : ℚ
  entry_time : List Char
  entry_order_id : Option String
  exit_price : Option ℚ
  exit_time : Option (List Char)
  exit_order_id : Option String
  pnl : Option ℚ
deriving DecidableEq, Repr

/-- Embedding of `Position.to_dict`: `asdict` plus `isoformat` on
`entry_time` and, when present, on `exit_time`. -/
def Position.to_dict (p : Position) : PositionDict :=
  { outcome := p.outcome
    entry_price := p.entry_price
    size := p.size
    entry_time := isoformat p.entry_time
    entry_order_id := p.entry_order_id
    exit_price := p.exit_price
    exit_time := p.exit_time.map isoformat
    exit_order_id := p.exit_order_id
    pnl := p.pnl }

/-- The per-record body of `_load_history`: parse `entry_time` with
`fromisoformat`, parse `exit_time` when present (the source's truthiness
test `if data.get('exit_time')` is the `Option` match here), and rebuild
the `Position`; `none` models the parse raising. -/
def load_history_entry (d : PositionDict) : Option Position :=
  match fromisoformat d.entry_time with
  | none => none
  | some et =>
      match d.exit_time with
      | none =>
          some { outcome := d.outcome, entry_price := d.entry_price, size := d.size,
                 entry_time := et, entry_order_id := d.entry_order_id,
                 exit_price := d.exit_price, exit_time := none,
                 exit_order_id := d.exit_order_id, pnl := d.pnl }
      | some s =>
          match fromisoformat s with
          | none => none
          | some xt =>
              some { outcome := d.outcome, entry_price := d.entry_price, size := d.size,
                     entry_time := et, entry_order_id := d.entry_order_id,
                     exit_price := d.exit_price, exit_time := some xt,
                     exit_order_id := d.exit_order_id, pnl := d.pnl }

/-- The loop of `_load_history` over the parsed file contents: rebuild the
positions in order; `none` models an exception aborting the load. -/
def load_history (ds : List PositionDict) : Option (List Position) :=
  match ds with
  | [] => some []
  | d :: rest =>
      match load_history_entry d with
      | none => none
      | some p =>
          match load_history rest with
          | none => none
          | some ps => some (p :: ps)

/-- Embedding of the `PositionTracker` state of `position_tracker.py`:
the optional open position, the in-memory history, the persisted file
contents (`_save_history` writes `[p.to_dict() for p in history]`), and a
counter of `logger.warning` calls. -/
structure PositionTracker where
  current_position : Option Position
  position_history : List Position
  persisted : List PositionDict
  warnings : ℕ

/-- Embedding of `PositionTracker.open_position`: warn (only) when a
position already exists, then overwrite `current_position` with a fresh
`Position` built from the arguments; exit fields start at `None`. -/
def open_position (tr : PositionTracker) (outcome : Outcome) (entry_price size : ℚ)
    (order_id : Option String) (now : DateTime) : PositionTracker :=
  let w := match tr.current_position with
    | some _ => tr.warnings + 1
    | none => tr.warnings
  { tr with
    warnings := w
    current_position :=
      some { outcome := outcome, entry_price := entry_price, size := size,
             entry_time := now, entry_order_id := order_id } }

/-- Embedding of `PositionTracker.close_position`: with no open position,
warn and return `None`; otherwise compute the P&L, fill the exit fields,
append the closed position to the history, persist the full history, clear
the open position and return the P&L. -/
def close_position (tr : PositionTracker) (exit_price : ℚ) (order_id : Option String)
    (now : DateTime) : Option ℚ × PositionTracker :=
  match tr.current_position with
  | none => (none, { tr with warnings := tr.warnings + 1 })
  | some pos =>
      let pnl := (exit_price - pos.entry_price) * pos.size
      let closed := { pos with exit_price := some exit_price, exit_time := some now,
                               exit_order_id := order_id, pnl := some pnl }
      let hist := tr.position_history ++ [closed]
      (some pnl,
        { tr with
          position_history := hist
          persisted := hist.map Position.to_dict
          current_position := none })

/-- Python truthiness of an optional P&L combined with positivity:
`p.pnl and p.pnl > 0` (so `None` and `0` are both excluded). -/
def pnlWin (p : Position) : Bool :=
  match p.pnl with
  | none => false
  | some x => decide (x ≠ 0) && decide (x > 0)

/-- Python truthiness of an optional P&L combined with negativity:
`p.pnl and p.pnl < 0`. -/
def pnlLose (p : Position) : Bool :=
  match p.pnl with
  | none => false
  | some x => decide (x ≠ 0) && decide (x < 0)

/-- The statistics dict returned by `PositionTracker.get_statistics`. -/
structure Stats where
  total_trades : ℕ
  total_pnl : ℚ
  winning_trades : ℕ
  losing_trades : ℕ
  win_rate : ℚ
  average_pnl : ℚ
deriving DecidableEq, Repr

/-- Embedding of `PositionTracker.get_statistics`: the all-zero dict on an
empty history; otherwise the history length, the sum of the recorded
P&Ls, the counts of strictly winning and strictly losing trades, and the
derived win rate and average (guarded by `total_trades > 0` as in the
source). -/
def get_statistics (tr : PositionTracker) : Stats :=
  if tr.position_history = [] then
    { total_trades := 0, total_pnl := 0, winning_trades := 0, losing_trades := 0,
      win_rate := 0, average_pnl := 0 }
  else
    let total_trades := tr.position_history.length
    let total_pnl := (tr.position_history.filterMap Position.pnl).sum
    let winning_trades := (tr.position_history.filter pnlWin).length
    let losing_trades := (tr.position_history.filter pnlLose).length
    let win_rate : ℚ :=
      if total_trades > 0 then (winning_trades : ℚ) / (total_trades : ℚ) * 100 else 0
    let average_pnl : ℚ :=
      if total_trades > 0 then total_pnl / (total_trades : ℚ) else 0
    { total_trades := total_trades, total_pnl := total_pnl,
      winning_trades := winning_trades, losing_trades := losing_trades,
      win_rate := win_rate, average_pnl := average_pnl }

/-- Replace the history of a tracker (used to state frame properties of
`get_statistics`). -/
def withHistory (tr : PositionTracker) (h : List Position) : PositionTracker :=
  { tr with position_history := h }

/-- A concrete timestamp with a zero microsecond field. -/
def d0 : DateTime := ⟨2026, 1, 2, 3, 4, 5, 0⟩

/-- A concrete timestamp with a nonzero microsecond field. -/
def d1 : DateTime := ⟨2026, 1, 2, 3, 4, 6, 123456⟩

/-- A concrete strategy state holding a UP position entered at 0.80 with
`position_high = 0.80` and the UP outcome currently trading at `cur`
(the worked exit example of the spec). -/
def exitExample (cur : ℚ) : TradingStrategy :=
  { entry_threshold_percent := 5
    entry_price_threshold := 3/5
    exit_reversal_percent := 5
    price_states := fun o =>
      match o with
      | Outcome.UP =>
          some { current_price := cur, low_price := cur, high_price := 4/5, last_update := 0 }
      | Outcome.DOWN => none
    current_position := some Outcome.UP
    position_entry_price := some (4/5)
    position_high := some (4/5) }

/-- A concrete strategy state with a latched UP outcome (used to witness
the latch one-shot theorem). -/
def latchedExample : TradingStrategy :=
  { entry_threshold_percent := 5
    entry_price_threshold := 3/5
    exit_reversal_percent := 5
    price_states := fun o =>
      match o with
      | Outcome.UP =>
          some { current_price := 7/10, low_price := 1/2, high_price := 7/10,
                 last_update := 0, entry_condition_met := true }
      | Outcome.DOWN => none
    current_position := none
    position_entry_price := none
    position_high := none }

/-- A concrete fresh strategy state (empty price-state dict, no
position). -/
def freshStrategy : TradingStrategy :=
  { entry_threshold_percent := 5
    entry_price_threshold := 3/5
    exit_reversal_percent := 5
    price_states := fun _ => none
    current_position := none
    position_entry_price := none
    position_high := none }

/-- A concrete tracker holding an open UP position with entry price 0.40
and size 2.5 (the worked P&L example of the spec). -/
def trEx : PositionTracker :=
  { current_position :=
      some { outcome := Outcome.UP, entry_price := 2/5, size := 5/2, entry_time := d0 }
    position_history := []
    persisted := []
    warnings := 0 }

/-- A concrete tracker with no open position and an empty history. -/
def trEmpty : PositionTracker :=
  { current_position := none, position_history := [], persisted := [], warnings := 0 }

/-- A concrete closed position with both timestamps set. -/
def posEx : Position :=
  { outcome := Outcome.UP, entry_price := 2/5, size := 5/2, entry_time := d0,
    entry_order_id := none, exit_price := some (11/20), exit_time := some d1,
    exit_order_id := none, pnl := some (3/8) }

/-- A concrete strategy state with no position and a UP outcome that rose
40 percent from its tracked low (used to witness the entry-signal
theorem). -/
def entryExample : TradingStrategy :=
  { freshStrategy with
    price_states := fun o =>
      match o with
      | Outcome.UP =>
          some { current_price := 7/10, low_price := 1/2, high_price := 7/10,
                 last_update := 0 }
      | Outcome.DOWN => none }

/-- A concrete price snapshot quoting both outcomes at 0.5. -/
def snapshotHalf : Outcome → Option ℚ := fun _ => some (1/2)

/-- A concrete price snapshot quoting both outcomes at 0.4 (below the lows
of the example states, so it sets fresh lows). -/
def snapshotLow : Outcome → Option ℚ := fun _ => some (2/5)

/-- Rule (a) of the spec's entry conditions: the price rose at least
`entry_threshold_percent` percent from the tracked low, the low is
positive (a zero low counts as not met), and the one-shot latch is
unset. -/
def ruleA_spec (s : TradingStrategy) (st : PriceState) : Prop :=
  st.low_price > 0 ∧
    ((st.current_price - st.low_price) / st.low_price) * 100 ≥ s.entry_threshold_percent ∧
    st.entry_condition_met = false

/-- Rule (b) of the spec's entry conditions: the latch is unset and the
current price reaches the absolute threshold. -/
def ruleB_spec (s : TradingStrategy) (st : PriceState) : Prop :=
  st.entry_condition_met = false ∧ st.current_price ≥ s.entry_price_threshold

instance (s : TradingStrategy) (st : PriceState) : Decidable (ruleA_spec s st) := by
  unfold ruleA_spec; infer_instance

instance (s : TradingStrategy) (st : PriceState) : Decidable (ruleB_spec s st) := by
  unfold ruleB_spec; infer_instance

/-- The spec-side entry condition for one outcome: the outcome is tracked
and rule (a) or rule (b) holds for its state. -/
def entryFires (s : TradingStrategy) (o : Outcome) : Prop :=
  ∃ st, s.price_states o = some st ∧ (ruleA_spec s st ∨ ruleB_spec s st)

instance (s : TradingStrategy) (o : Outcome) : Decidable (entryFires s o) :=
  match h : s.price_states o with
  | none => Decidable.isFalse (by rintro ⟨st, hst, _⟩; rw [h] at hst; exact Option.noConfusion hst)
  | some st =>
      if hr : ruleA_spec s st ∨ ruleB_spec s st then
        Decidable.isTrue ⟨st, h, hr⟩
      else
        Decidable.isFalse (by
          rintro ⟨st', hst', hr'⟩
          rw [h] at hst'
          cases hst'
          exact hr hr')

/-- C6: `exit_position` with an open position returns the inverse outcome
and clears exactly the three position-tracking fields (the record update
leaves `price_states` and the thresholds untouched); with no open position
it returns `none` and leaves the whole state unchanged; the price-state
dict is never modified; and the inversion swaps UP and DOWN. -/
theorem C6_exit_position (s : TradingStrategy) :
    (∀ o, s.current_position = some o →
        exit_position s =
          (some (inverse o),
            { s with current_position := none, position_entry_price := none,
                     position_high := none }))
  ∧ (s.current_position = none → exit_position s = (none, s))
  ∧ (exit_position s).2.price_states = s.price_states
  ∧ inverse Outcome.UP = Outcome.DOWN ∧ inverse Outcome.DOWN = Outcome.UP := by
  refine ⟨?_, ?_, ?_, rfl, rfl⟩
  · intro o h
    simp [exit_position, h]
  · intro h
    simp [exit_position, h]
  · cases h : s.current_position <;> simp [exit_position, h]

/-- Witness for C6 at a concrete state holding a UP position and at a
concrete state with no position. -/
theorem C6_exit_position_witness :
    exit_position (exitExample (3/4)) =
      (some Outcome.DOWN,
        { exitExample (3/4) with current_position := none, position_entry_price := none,
                                 position_high := none })
  ∧ exit_position freshStrategy = (none, freshStrategy) := by
  refine ⟨?_, ?_⟩
  · have h := (C6_exit_position (exitExample (3/4))).1 Outcome.UP rfl
    simpa [inverse] using h
  · exact (C6_exit_position freshStrategy).2.1 rfl

/-- C8: two `open_position` calls without an intervening close do not
raise; the second call leaves exactly one open position in memory, carrying
the second call's outcome, entry price, size and order reference (with
fresh exit fields), leaves the history unchanged, and emits one more
warning than the state after the first call. -/
theorem C8_double_open (tr : PositionTracker) (o1 o2 : Outcome) (p1 z1 p2 z2 : ℚ)
    (oid1 oid2 : Option String) (t1 t2 : DateTime) :
    (open_position (open_position tr o1 p1 z1 oid1 t1) o2 p2 z2 oid2 t2).current_position
      = some { outcome := o2, entry_price := p2, size := z2, entry_time := t2,
               entry_order_id := oid2 }
  ∧ (open_position (open_position tr o1 p1 z1 oid1 t1) o2 p2 z2 oid2 t2).position_history
      = tr.position_history
  ∧ (open_position (open_position tr o1 p1 z1 oid1 t1) o2 p2 z2 oid2 t2).warnings
      = (open_position tr o1 p1 z1 oid1 t1).warnings + 1 := by
  refine ⟨rfl, rfl, rfl⟩

/-- C3: `check_exit_signal` is true exactly when a position is open, its
outcome is tracked, `position_high` is present and positive, and the
percentage drop from `position_high` to the held outcome's current price
reaches `exit_reversal_percent`; at `position_high = 0.80` and a 5 percent
threshold, a current price of 0.75 triggers and 0.77 does not. -/
theorem C3_check_exit_signal (s : TradingStrategy) :
    (check_exit_signal s = true ↔
      ∃ pos st ph, s.current_position = some pos ∧ s.price_states pos = some st ∧
        s.position_high = some ph ∧ 0 < ph ∧
        ((ph - st.current_price) / ph) * 100 ≥ s.exit_reversal_percent)
  ∧ check_exit_signal (exitExample (3/4)) = true
  ∧ check_exit_signal (exitExample (77/100)) = false := by
  refine ⟨?_, ?_, ?_⟩
  · constructor
    · intro h
      cases hc : s.current_position with
      | none => simp [check_exit_signal, hc] at h
      | some pos =>
          cases hs : s.price_states pos with
          | none => simp [check_exit_signal, hc, hs] at h
          | some st =>
              cases hp : s.position_high with
              | none => simp [check_exit_signal, hc, hs, hp] at h
              | some ph =>
                  simp only [check_exit_signal, hc, hs, hp] at h
                  split_ifs at h with hcond
                  exact ⟨pos, st, ph, rfl, hs, rfl, hcond.2, of_decide_eq_true h⟩
    · rintro ⟨pos, st, ph, hc, hs, hp, hph, hge⟩
      simp only [check_exit_signal, hc, hs, hp]
      rw [if_pos ⟨ne_of_gt hph, hph⟩]
      exact decide_eq_true hge
  · simp only [check_exit_signal, exitExample]
    norm_num
  · simp only [check_exit_signal, exitExample]
    norm_num

/-- C5: with an open position, `close_position` returns the P&L
`(exit_price − entry_price) × size`, appends the completed position at the
end of the history, persists the serialized full history, and clears the
open position; with no open position it returns `none`, emits a warning
and leaves the history, the persisted file and the (absent) position
unchanged; the worked example entry 0.40, size 2.5, exit 0.55 yields
0.375. -/
theorem C5_close_position (tr : PositionTracker) (xp : ℚ) (oid : Option String)
    (now : DateTime) :
    (∀ pos, tr.current_position = some pos →
        close_position tr xp oid now =
          (some ((xp - pos.entry_price) * pos.size),
            { tr with
              position_history := tr.position_history ++
                [{ pos with exit_price := some xp, exit_time := some now,
                            exit_order_id := oid,
                            pnl := some ((xp - pos.entry_price) * pos.size) }]
              persisted := (tr.position_history ++
                [{ pos with exit_price := some xp, exit_time := some now,
                            exit_order_id := oid,
                            pnl := some ((xp - pos.entry_price) * pos.size) }]).map
                  Position.to_dict
              current_position := none }))
  ∧ (tr.current_position = none →
        close_position tr xp oid now =
          (none, { tr with warnings := tr.warnings + 1 }))
  ∧ (close_position trEx (11/20) none d0).1 = some (3/8) := by
  refine ⟨?_, ?_, by simp only [close_position, trEx]; norm_num⟩
  · intro pos h
    simp [close_position, h]
  · intro h
    simp [close_position, h]

/-- Witness for C5 at the worked example: closing the open UP position of
`trEx` (entry 0.40, size 2.5) at 0.55 returns a P&L of 0.375, records one
closed position and clears the open one. -/
theorem C5_close_position_witness :
    close_position trEx (11/20) none d0 =
      (some (3/8),
        { trEx with
          position_history := [{ (trEx.current_position.getD posEx) with
            exit_price := some (11/20), exit_time := some d0, exit_order_id := none,
            pnl := some (3/8) }]
          persisted := [Position.to_dict { (trEx.current_position.getD posEx) with
            exit_price := some (11/20), exit_time := some d0, exit_order_id := none,
            pnl := some (3/8) }]
          current_position := none }) := by
  have h := (C5_close_position trEx (11/20) none d0).1
    { outcome := Outcome.UP, entry_price := 2/5, size := 5/2, entry_time := d0 } rfl
  have harith : ((11:ℚ)/20 - 2/5) * (5/2) = 3/8 := by norm_num
  simpa [trEx, harith] using h

/-- C7: `get_statistics` on an empty history returns the all-zero
statistics; on a non-empty history the win rate is
`winning_trades / total_trades × 100` and the average P&L is
`total_pnl / total_trades`; and appending a closed position whose P&L is
zero increments `total_trades` but changes neither `winning_trades` nor
`losing_trades`. -/
theorem C7_get_statistics (tr : PositionTracker) :
    (tr.position_history = [] →
        get_statistics tr =
          { total_trades := 0, total_pnl := 0, winning_trades := 0, losing_trades := 0,
            win_rate := 0, average_pnl := 0 })
  ∧ (tr.position_history ≠ [] →
        (get_statistics tr).win_rate =
            ((get_statistics tr).winning_trades : ℚ) /
              ((get_statistics tr).total_trades : ℚ) * 100
      ∧ (get_statistics tr).average_pnl =
            (get_statistics tr).total_pnl / ((get_statistics tr).total_trades : ℚ))
  ∧ (∀ p : Position, p.pnl = some 0 →
        (get_statistics (withHistory tr (tr.position_history ++ [p]))).total_trades
            = (get_statistics tr).total_trades + 1
      ∧ (get_statistics (withHistory tr (tr.position_history ++ [p]))).winning_trades
            = (get_statistics tr).winning_trades
      ∧ (get_statistics (withHistory tr (tr.position_history ++ [p]))).losing_trades
            = (get_statistics tr).losing_trades) := by
  refine ⟨?_, ?_, ?_⟩
  · intro h
    simp [get_statistics, h]
  · intro h
    have hl : 0 < tr.position_history.length := List.length_pos.mpr h
    constructor <;> simp [get_statistics, h, hl]
  · intro p hp
    have hW : pnlWin p = false := by simp [pnlWin, hp]
    have hL : pnlLose p = false := by simp [pnlLose, hp]
    by_cases h : tr.position_history = []
    · refine ⟨?_, ?_, ?_⟩ <;>
        simp [get_statistics, withHistory, h, List.filter_cons, hW, hL]
    · have h2 : tr.position_history ++ [p] ≠ [] := by simp
      refine ⟨?_, ?_, ?_⟩ <;>
        simp [get_statistics, withHistory, h, h2, List.filter_append,
          List.filter_cons, hW, hL]

/-- Witness for C7: on a concrete empty tracker the statistics are all
zero, and appending a zero-P&L position to it yields one trade counted as
neither winning nor losing. -/
theorem C7_get_statistics_witness :
    get_statistics trEmpty =
      { total_trades := 0, total_pnl := 0, winning_trades := 0, losing_trades := 0,
        win_rate := 0, average_pnl := 0 }
  ∧ (get_statistics (withHistory trEmpty (trEmpty.position_history ++
        [{ posEx with pnl := some 0 }]))).winning_trades
      = (get_statistics trEmpty).winning_trades := by
  exact ⟨(C7_get_statistics trEmpty).1 rfl,
    ((C7_get_statistics trEmpty).2.2 { posEx with pnl := some 0 } rfl).2.1⟩

/-- C10: a history entry with no recorded P&L (as a loaded record may
have) is counted in `total_trades` but contributes to none of `total_pnl`,
`winning_trades`, `losing_trades`; the win rate and average still divide
by the full entry count. -/
theorem C10_stats_missing_pnl (tr : PositionTracker) (p : Position) (hp : p.pnl = none) :
    (get_statistics (withHistory tr (tr.position_history ++ [p]))).total_trades
        = (get_statistics tr).total_trades + 1
  ∧ (get_statistics (withHistory tr (tr.position_history ++ [p]))).total_pnl
        = (get_statistics tr).total_pnl
  ∧ (get_statistics (withHistory tr (tr.position_history ++ [p]))).winning_trades
        = (get_statistics tr).winning_trades
  ∧ (get_statistics (withHistory tr (tr.position_history ++ [p]))).losing_trades
        = (get_statistics tr).losing_trades
  ∧ (get_statistics (withHistory tr (tr.position_history ++ [p]))).win_rate
        = ((get_statistics (withHistory tr (tr.position_history ++ [p]))).winning_trades : ℚ)
            / ((get_statistics (withHistory tr (tr.position_history ++ [p]))).total_trades : ℚ)
            * 100
  ∧ (get_statistics (withHistory tr (tr.position_history ++ [p]))).average_pnl
        = (get_statistics (withHistory tr (tr.position_history ++ [p]))).total_pnl
            / ((get_statistics (withHistory tr (tr.position_history ++ [p]))).total_trades : ℚ) := by
  have hW : pnlWin p = false := by simp [pnlWin, hp]
  have hL : pnlLose p = false := by simp [pnlLose, hp]
  by_cases h : tr.position_history = []
  · refine ⟨?_, ?_, ?_, ?_, ?_, ?_⟩ <;>
      simp [get_statistics, withHistory, h, List.filter_cons, List.filterMap_cons,
        hW, hL, hp]
  · have h2 : tr.position_history ++ [p] ≠ [] := by simp
    refine ⟨?_, ?_, ?_, ?_, ?_, ?_⟩ <;>
      simp [get_statistics, withHistory, h, h2, List.filter_append, List.filter_cons,
        List.filterMap_append, List.filterMap_cons, hW, hL, hp]

/-- Witness for C10 at a concrete tracker with one P&L-less entry. -/
theorem C10_stats_missing_pnl_witness :
    (get_statistics (withHistory trEmpty (trEmpty.position_history ++
        [{ posEx with pnl := none }]))).total_trades
      = (get_statistics trEmpty).total_trades + 1
  ∧ (get_statistics (withHistory trEmpty (trEmpty.position_history ++
        [{ posEx with pnl := none }]))).total_pnl
      = (get_statistics trEmpty).total_pnl := by
  exact ⟨(C10_stats_missing_pnl trEmpty { posEx with pnl := none } rfl).1,
    (C10_stats_missing_pnl trEmpty { posEx with pnl := none } rfl).2.1⟩

/-- An untracked outcome makes the entry scan skip it. -/
theorem checkOutcome_of_untracked (s : TradingStrategy) (o : Outcome)
    (h : s.price_states o = none) : checkOutcome s o = none := by
  simp [checkOutcome, h]

/-- Rule (a) firing returns the outcome and latches its state. -/
theorem checkOutcome_of_ruleA (s : TradingStrategy) (o : Outcome) (st : PriceState)
    (h : s.price_states o = some st) (hA : ruleA_spec s st) :
    checkOutcome s o = some (o, setLatch s o) := by
  obtain ⟨h1, h2, h3⟩ := hA
  simp only [checkOutcome, h]
  rw [if_pos ⟨h1, h2, h3⟩]

/-- Rule (b) firing (with rule (a) not firing) returns the outcome and
leaves the state unchanged. -/
theorem checkOutcome_of_ruleB (s : TradingStrategy) (o : Outcome) (st : PriceState)
    (h : s.price_states o = some st) (hA : ¬ ruleA_spec s st) (hB : ruleB_spec s st) :
    checkOutcome s o = some (o, s) := by
  obtain ⟨hb1, hb2⟩ := hB
  simp only [checkOutcome, h]
  rw [if_neg (fun hc => hA ⟨hc.1, hc.2.1, hc.2.2⟩), if_pos ⟨hb1, hb2⟩]

/-- An outcome for which the spec-side entry condition fails is skipped by
the scan. -/
theorem checkOutcome_of_not_fires (s : TradingStrategy) (o : Outcome)
    (h : ¬ entryFires s o) : checkOutcome s o = none := by
  cases hst : s.price_states o with
  | none => exact checkOutcome_of_untracked s o hst
  | some st =>
      have hA : ¬ ruleA_spec s st := fun hA => h ⟨st, hst, Or.inl hA⟩
      have hB : ¬ ruleB_spec s st := fun hB => h ⟨st, hst, Or.inr hB⟩
      simp only [checkOutcome, hst]
      rw [if_neg (fun hc => hA ⟨hc.1, hc.2.1, hc.2.2⟩),
        if_neg (fun hc => hB ⟨hc.1, hc.2⟩)]

/-- C4: `check_entry_signal` returns `none` (with no state change)
whenever a position is open; otherwise its returned outcome is the first
of UP, DOWN whose spec-side entry condition fires (rule (a), which counts
a non-positive low as not met, or rule (b)); and for the returned outcome
the state is latched exactly when rule (a) (checked first) held. -/
theorem C4_check_entry_signal (s : TradingStrategy) :
    (∀ o, s.current_position = some o → check_entry_signal s = (none, s))
  ∧ (s.current_position = none →
      ((check_entry_signal s).1 =
          if entryFires s Outcome.UP then some Outcome.UP
          else if entryFires s Outcome.DOWN then some Outcome.DOWN
          else none)
      ∧ (∀ o st, (check_entry_signal s).1 = some o → s.price_states o = some st →
            (ruleA_spec s st → (check_entry_signal s).2 = setLatch s o)
          ∧ (¬ ruleA_spec s st → (check_entry_signal s).2 = s))) := by
  constructor
  · intro o h
    simp [check_entry_signal, h]
  · intro h
    by_cases fU : entryFires s Outcome.UP
    · obtain ⟨stU, hstU, hABU⟩ := fU
      have fU' : entryFires s Outcome.UP := ⟨stU, hstU, hABU⟩
      by_cases hAU : ruleA_spec s stU
      · have hco := checkOutcome_of_ruleA s Outcome.UP stU hstU hAU
        refine ⟨?_, ?_⟩
        · simp [check_entry_signal, h, hco, if_pos fU']
        · intro o st ho hst
          have ho' : o = Outcome.UP := by
            simp [check_entry_signal, h, hco] at ho
            exact ho.symm
          subst ho'
          rw [hstU] at hst
          cases hst
          refine ⟨fun _ => ?_, fun hA => absurd hAU hA⟩
          simp [check_entry_signal, h, hco]
      · have hBU : ruleB_spec s stU := by
          cases hABU with
          | inl hA => exact absurd hA hAU
          | inr hB => exact hB
        have hco := checkOutcome_of_ruleB s Outcome.UP stU hstU hAU hBU
        refine ⟨?_, ?_⟩
        · simp [check_entry_signal, h, hco, if_pos fU']
        · intro o st ho hst
          have ho' : o = Outcome.UP := by
            simp [check_entry_signal, h, hco] at ho
            exact ho.symm
          subst ho'
          rw [hstU] at hst
          cases hst
          refine ⟨fun hA => absurd hA hAU, fun _ => ?_⟩
          simp [check_entry_signal, h, hco]
    · have hcoU := checkOutcome_of_not_fires s Outcome.UP fU
      by_cases fD : entryFires s Outcome.DOWN
      · obtain ⟨stD, hstD, hABD⟩ := fD
        have fD' : entryFires s Outcome.DOWN := ⟨stD, hstD, hABD⟩
        by_cases hAD : ruleA_spec s stD
        · have hco := checkOutcome_of_ruleA s Outcome.DOWN stD hstD hAD
          refine ⟨?_, ?_⟩
          · simp [check_entry_signal, h, hcoU, hco, if_neg fU, if_pos fD']
          · intro o st ho hst
            have ho' : o = Outcome.DOWN := by
              simp [check_entry_signal, h, hcoU, hco] at ho
              exact ho.symm
            subst ho'
            rw [hstD] at hst
            cases hst
            refine ⟨fun _ => ?_, fun hA => absurd hAD hA⟩
            simp [check_entry_signal, h, hcoU, hco]
        · have hBD : ruleB_spec s stD := by
            cases hABD with
            | inl hA => exact absurd hA hAD
            | inr hB => exact hB
          have hco := checkOutcome_of_ruleB s Outcome.DOWN stD hstD hAD hBD
          refine ⟨?_, ?_⟩
          · simp [check_entry_signal, h, hcoU, hco, if_neg fU, if_pos fD']
          · intro o st ho hst
            have ho' : o = Outcome.DOWN := by
              simp [check_entry_signal, h, hcoU, hco] at ho
              exact ho.symm
            subst ho'
            rw [hstD] at hst
            cases hst
            refine ⟨fun hA => absurd hA hAD, fun _ => ?_⟩
            simp [check_entry_signal, h, hcoU, hco]
      · have hcoD := checkOutcome_of_not_fires s Outcome.DOWN fD
        refine ⟨?_, ?_⟩
        · simp [check_entry_signal, h, hcoU, hcoD, if_neg fU, if_neg fD]
        · intro o st ho hst
          simp [check_entry_signal, h, hcoU, hcoD] at ho

/-- Witness for C4: on the concrete `entryExample` state the entry scan
returns UP (rule (a) fires, 40 percent above the low) and latches it, and
on a state with an open position the scan returns nothing. -/
theorem C4_check_entry_signal_witness :
    (check_entry_signal entryExample).1 = some Outcome.UP
  ∧ check_entry_signal (exitExample (3/4)) = (none, exitExample (3/4)) := by
  have hA : ruleA_spec entryExample
      { current_price := 7/10, low_price := 1/2, high_price := 7/10, last_update := 0 } := by
    refine ⟨by norm_num, ?_, rfl⟩
    show ((7:ℚ)/10 - 1/2) / (1/2) * 100 ≥ entryExample.entry_threshold_percent
    norm_num [entryExample, freshStrategy]
  have hfires : entryFires entryExample Outcome.UP :=
    ⟨{ current_price := 7/10, low_price := 1/2, high_price := 7/10, last_update := 0 },
      rfl, Or.inl hA⟩
  constructor
  · have h := ((C4_check_entry_signal entryExample).2 rfl).1
    rw [h, if_pos hfires]
  · exact (C4_check_entry_signal (exitExample (3/4))).1 Outcome.UP rfl

/-- The price-state dict after `update_prices`, pointwise: untouched when
the snapshot misses the outcome, otherwise updated by `updateOutcome`. -/
theorem update_prices_states (s : TradingStrategy) (prices : Outcome → Option ℚ)
    (t : ℕ) (o : Outcome) :
    (update_prices s prices t).price_states o =
      match prices o with
      | none => s.price_states o
      | some p => some (updateOutcome (s.price_states o) p t) := by
  cases o <;> cases hU : prices Outcome.UP <;> cases hD : prices Outcome.DOWN <;>
    simp [update_prices, hU, hD]

/-- After one `updateOutcome` the low/current/high sandwich holds,
whatever the previous state was. -/
theorem updateOutcome_sandwich (ps : Option PriceState) (p : ℚ) (t : ℕ) :
    (updateOutcome ps p t).low_price ≤ (updateOutcome ps p t).current_price ∧
      (updateOutcome ps p t).current_price ≤ (updateOutcome ps p t).high_price := by
  cases ps with
  | none => simp [updateOutcome]
  | some st =>
      simp only [updateOutcome]
      constructor
      · split_ifs with h
        · exact le_refl _
        · exact le_of_not_lt h
      · split_ifs with h
        · exact le_refl _
        · exact le_of_not_gt h

/-- One `updateOutcome` never raises the low nor lowers the high. -/
theorem updateOutcome_mono (st : PriceState) (p : ℚ) (t : ℕ) :
    (updateOutcome (some st) p t).low_price ≤ st.low_price ∧
      st.high_price ≤ (updateOutcome (some st) p t).high_price := by
  simp only [updateOutcome]
  constructor
  · split_ifs with h
    · exact le_of_lt h
    · exact le_refl _
  · split_ifs with h
    · exact le_of_lt h
    · exact le_refl _

/-- `update_prices` preserves the sandwich invariant. -/
theorem extremumInv_update (s : TradingStrategy) (hInv : ExtremumInv s)
    (prices : Outcome → Option ℚ) (t : ℕ) :
    ExtremumInv (update_prices s prices t) := by
  intro o st' h'
  rw [update_prices_states] at h'
  cases hp : prices o with
  | none => rw [hp] at h'; exact hInv o st' h'
  | some p =>
      rw [hp] at h'
      cases h'
      exact updateOutcome_sandwich (s.price_states o) p t

/-- A tracked outcome stays tracked across one `update_prices`, with low
not raised and high not lowered. -/
theorem update_tracks_mono (s : TradingStrategy) (prices : Outcome → Option ℚ)
    (t : ℕ) (o : Outcome) (st : PriceState) (h : s.price_states o = some st) :
    ∃ st', (update_prices s prices t).price_states o = some st' ∧
      st'.low_price ≤ st.low_price ∧ st.high_price ≤ st'.high_price := by
  cases hp : prices o with
  | none => exact ⟨st, by rw [update_prices_states, hp]; exact h, le_refl _, le_refl _⟩
  | some p =>
      refine ⟨updateOutcome (some st) p t, ?_, (updateOutcome_mono st p t).1,
        (updateOutcome_mono st p t).2⟩
      rw [update_prices_states, hp, h]

/-- The sandwich invariant holds after any sequence of updates. -/
theorem applyUpdates_inv (l : List ((Outcome → Option ℚ) × ℕ)) :
    ∀ s, ExtremumInv s → ExtremumInv (applyUpdates s l) := by
  induction l with
  | nil => exact fun s h => h
  | cons pr rest ih =>
      intro s h
      exact ih _ (extremumInv_update s h pr.1 pr.2)

/-- A tracked outcome stays tracked across any sequence of updates, with
low non-increasing and high non-decreasing. -/
theorem applyUpdates_mono (l : List ((Outcome → Option ℚ) × ℕ)) :
    ∀ s o st, s.price_states o = some st →
      ∃ st', (applyUpdates s l).price_states o = some st' ∧
        st'.low_price ≤ st.low_price ∧ st.high_price ≤ st'.high_price := by
  induction l with
  | nil => exact fun s o st h => ⟨st, h, le_refl _, le_refl _⟩
  | cons pr rest ih =>
      intro s o st h
      obtain ⟨st1, h1, lo1, hi1⟩ := update_tracks_mono s pr.1 pr.2 o st h
      obtain ⟨st', h', lo', hi'⟩ := ih _ o st1 h1
      exact ⟨st', h', le_trans lo' lo1, le_trans hi1 hi'⟩

/-- Splitting a sequence of updates. -/
theorem applyUpdates_append (s : TradingStrategy)
    (l1 l2 : List ((Outcome → Option ℚ) × ℕ)) :
    applyUpdates s (l1 ++ l2) = applyUpdates (applyUpdates s l1) l2 := by
  simp [applyUpdates, List.foldl_append]

/-- C2: starting from any state satisfying the sandwich invariant, every
sequence of `update_prices` calls keeps `low ≤ current ≤ high` for every
tracked outcome; across any split of the sequence the low is
non-increasing and the high non-decreasing per outcome; and the first
observation of an outcome initializes its state with
low = high = current = the observed price (latch unset). -/
theorem C2_extremum (s : TradingStrategy) (hInv : ExtremumInv s) :
    (∀ l, ExtremumInv (applyUpdates s l))
  ∧ (∀ l1 l2 o st st',
        (applyUpdates s l1).price_states o = some st →
        (applyUpdates s (l1 ++ l2)).price_states o = some st' →
        st'.low_price ≤ st.low_price ∧ st.high_price ≤ st'.high_price)
  ∧ (∀ o p prices t, s.price_states o = none → prices o = some p →
        (update_prices s prices t).price_states o =
          some { current_price := p, low_price := p, high_price := p,
                 last_update := t }) := by
  refine ⟨fun l => applyUpdates_inv l s hInv, ?_, ?_⟩
  · intro l1 l2 o st st' h1 h2
    rw [applyUpdates_append] at h2
    obtain ⟨st'', h'', lo, hi⟩ := applyUpdates_mono l2 _ o st h1
    rw [h''] at h2
    cases h2
    exact ⟨lo, hi⟩
  · intro o p prices t h hp
    rw [update_prices_states, hp, h]
    rfl

/-- Witness for C2 at the concrete fresh strategy: the invariant holds
after two concrete updates, and the first observation of UP at 0.5
initializes its state to `(0.5, 0.5, 0.5)`. -/
theorem C2_extremum_witness :
    ExtremumInv (applyUpdates freshStrategy [(snapshotHalf, 0), (snapshotLow, 1)])
  ∧ (update_prices freshStrategy snapshotHalf 0).price_states Outcome.UP =
      some { current_price := 1/2, low_price := 1/2, high_price := 1/2,
             last_update := 0 } := by
  have hInv : ExtremumInv freshStrategy := by
    intro o st h
    simp [freshStrategy] at h
  exact ⟨(C2_extremum freshStrategy hInv).1 [(snapshotHalf, 0), (snapshotLow, 1)],
    (C2_extremum freshStrategy hInv).2.2 Outcome.UP (1/2) snapshotHalf 0 rfl rfl⟩

/-- A price update never clears a set latch (in particular a fresh low
leaves it set). -/
theorem latched_update (s : TradingStrategy) (o : Outcome) (h : latched s o)
    (prices : Outcome → Option ℚ) (t : ℕ) :
    latched (update_prices s prices t) o := by
  obtain ⟨st, hst, hmet⟩ := h
  cases hp : prices o with
  | none => exact ⟨st, by rw [update_prices_states, hp]; exact hst, hmet⟩
  | some p =>
      refine ⟨updateOutcome (some st) p t, ?_, ?_⟩
      · rw [update_prices_states, hp, hst]
      · simp [updateOutcome, hmet]

/-- Setting any latch preserves every latch already set. -/
theorem latched_setLatch (s : TradingStrategy) (o o' : Outcome) (h : latched s o) :
    latched (setLatch s o') o := by
  obtain ⟨st, hst, hmet⟩ := h
  by_cases he : o = o'
  · subst he
    exact ⟨{ st with entry_condition_met := true }, by simp [setLatch, hst], rfl⟩
  · exact ⟨st, by simp [setLatch, he, hst], hmet⟩

/-- A fired per-outcome scan returns that outcome, and its state is either
the latched state or the unchanged one. -/
theorem checkOutcome_some_eq (s : TradingStrategy) (o ro : Outcome)
    (rs : TradingStrategy) (h : checkOutcome s o = some (ro, rs)) :
    ro = o ∧ (rs = setLatch s o ∨ rs = s) := by
  cases hst : s.price_states o with
  | none =>
      rw [checkOutcome_of_untracked s o hst] at h
      exact Option.noConfusion h
  | some st =>
      simp only [checkOutcome, hst] at h
      split_ifs at h with h1 h2
      · cases h; exact ⟨rfl, Or.inl rfl⟩
      · cases h; exact ⟨rfl, Or.inr rfl⟩

/-- The state returned by `check_entry_signal` is the input state, possibly
with one more latch set. -/
theorem check_entry_state (s : TradingStrategy) :
    (check_entry_signal s).2 = s ∨ ∃ o, (check_entry_signal s).2 = setLatch s o := by
  unfold check_entry_signal
  cases hc : s.current_position with
  | some _ => exact Or.inl rfl
  | none =>
      cases hU : checkOutcome s Outcome.UP with
      | some r =>
          obtain ⟨ro, rs⟩ := r
          rcases (checkOutcome_some_eq s Outcome.UP ro rs hU).2 with h2 | h2
          · exact Or.inr ⟨Outcome.UP, by simp [h2]⟩
          · exact Or.inl (by simp [h2])
      | none =>
          cases hD : checkOutcome s Outcome.DOWN with
          | some r =>
              obtain ⟨ro, rs⟩ := r
              rcases (checkOutcome_some_eq s Outcome.DOWN ro rs hD).2 with h2 | h2
              · exact Or.inr ⟨Outcome.DOWN, by simp [h2]⟩
              · exact Or.inl (by simp [h2])
          | none => exact Or.inl rfl

/-- Every strategy operation other than `reset_tracking` preserves a set
latch. -/
theorem latched_applyOp (s : TradingStrategy) (o : Outcome) (op : StratOp)
    (h : latched s o) : latched (applyOp s op) o := by
  cases op with
  | update prices t => exact latched_update s o h prices t
  | checkEntry =>
      show latched (check_entry_signal s).2 o
      rcases check_entry_state s with he | ⟨o', he⟩
      · rw [he]; exact h
      · rw [he]; exact latched_setLatch s o o' h
  | enter o' p => exact h
  | exitPos =>
      obtain ⟨st, hst, hmet⟩ := h
      refine ⟨st, ?_, hmet⟩
      show (exit_position s).2.price_states o = some st
      cases hc : s.current_position <;> simp [exit_position, hc] <;> exact hst

/-- A latched outcome can never fire the per-outcome entry scan. -/
theorem checkOutcome_of_latched (s : TradingStrategy) (o : Outcome)
    (h : latched s o) : checkOutcome s o = none := by
  obtain ⟨st, hst, hmet⟩ := h
  have hne : ¬ (st.entry_condition_met = false) := by rw [hmet]; simp
  simp only [checkOutcome, hst]
  rw [if_neg (fun hc => hne hc.2.2), if_neg (fun hc => hne hc.1)]

/-- A latched outcome is never returned by `check_entry_signal`. -/
theorem latched_no_entry (s : TradingStrategy) (o : Outcome) (h : latched s o) :
    (check_entry_signal s).1 ≠ some o := by
  unfold check_entry_signal
  cases hc : s.current_position with
  | some _ => simp
  | none =>
      have hno := checkOutcome_of_latched s o h
      cases o with
      | UP =>
          rw [hno]
          cases hD : checkOutcome s Outcome.DOWN with
          | none => simp
          | some r =>
              obtain ⟨ro, rs⟩ := r
              have h1 := (checkOutcome_some_eq s Outcome.DOWN ro rs hD).1
              simp [h1]
      | DOWN =>
          cases hU : checkOutcome s Outcome.UP with
          | none => simp [hno]
          | some r =>
              obtain ⟨ro, rs⟩ := r
              have h1 := (checkOutcome_some_eq s Outcome.UP ro rs hU).1
              simp [h1]

/-- C1: once the rule (a) latch is set for an outcome, it stays set across
every sequence of updates, entry checks, entries and exits (in particular
a fresh low does not clear it), and `check_entry_signal` never returns
that outcome again — while `reset_tracking` erases the outcome's whole
tracking state. -/
theorem C1_latch_one_shot (s : TradingStrategy) (o : Outcome) (ops : List StratOp)
    (h : latched s o) :
    latched (applyOps s ops) o
  ∧ (check_entry_signal (applyOps s ops)).1 ≠ some o
  ∧ (reset_tracking (applyOps s ops)).price_states o = none := by
  have hl : latched (applyOps s ops) o := by
    induction ops generalizing s with
    | nil => exact h
    | cons op rest ih => exact ih _ (latched_applyOp s o op h)
  exact ⟨hl, latched_no_entry _ o hl, rfl⟩

/-- Witness for C1 at the concrete latched state: after an update that
sets a fresh low for UP, the UP latch is still set and the entry check
does not return UP. -/
theorem C1_latch_one_shot_witness :
    latched (applyOps latchedExample [StratOp.update snapshotLow 1]) Outcome.UP
  ∧ (check_entry_signal (applyOps latchedExample [StratOp.update snapshotLow 1])).1
      ≠ some Outcome.UP := by
  have h := C1_latch_one_shot latchedExample Outcome.UP [StratOp.update snapshotLow 1]
    ⟨{ current_price := 7/10, low_price := 1/2, high_price := 7/10, last_update := 0,
       entry_condition_met := true }, rfl, rfl⟩
  exact ⟨h.1, h.2.1⟩

/-- The decimal digit characters have the expected code points. -/
theorem digitChar_toNat : ∀ n, n < 10 → (digitChar n).toNat = 48 + n := by decide

/-- The decimal digit characters are digits. -/
theorem digitChar_isDigit : ∀ n, n < 10 → (digitChar n).isDigit = true := by decide

/-- Parsing inverts two-digit zero-padded printing. -/
theorem parse2_pad2 (n : ℕ) (h : n < 100) :
    parse2 (digitChar (n / 10)) (digitChar (n % 10)) = some n := by
  have h1 : n / 10 < 10 := by omega
  have h2 : n % 10 < 10 := by omega
  rw [parse2, if_pos ⟨digitChar_isDigit _ h1, digitChar_isDigit _ h2⟩,
    digitChar_toNat _ h1, digitChar_toNat _ h2]
  congr 1
  omega

/-- Parsing inverts four-digit zero-padded printing. -/
theorem parse4_pad4 (n : ℕ) (h : n < 10000) :
    parse4 (digitChar (n / 1000)) (digitChar (n / 100 % 10)) (digitChar (n / 10 % 10))
      (digitChar (n % 10)) = some n := by
  have h1 : n / 1000 < 10 := by omega
  have h2 : n / 100 % 10 < 10 := by omega
  have h3 : n / 10 % 10 < 10 := by omega
  have h4 : n % 10 < 10 := by omega
  rw [parse4, if_pos ⟨digitChar_isDigit _ h1, digitChar_isDigit _ h2,
      digitChar_isDigit _ h3, digitChar_isDigit _ h4⟩,
    digitChar_toNat _ h1, digitChar_toNat _ h2, digitChar_toNat _ h3,
    digitChar_toNat _ h4]
  congr 1
  omega

/-- Parsing inverts six-digit zero-padded printing. -/
theorem parse6_pad6 (n : ℕ) (h : n < 1000000) :
    parse6 (digitChar (n / 100000)) (digitChar (n / 10000 % 10))
      (digitChar (n / 1000 % 10)) (digitChar (n / 100 % 10))
      (digitChar (n / 10 % 10)) (digitChar (n % 10)) = some n := by
  have h1 : n / 100000 < 10 := by omega
  have h2 : n / 10000 % 10 < 10 := by omega
  have h3 : n / 1000 % 10 < 10 := by omega
  have h4 : n / 100 % 10 < 10 := by omega
  have h5 : n / 10 % 10 < 10 := by omega
  have h6 : n % 10 < 10 := by omega
  rw [parse6, if_pos ⟨digitChar_isDigit _ h1, digitChar_isDigit _ h2,
      digitChar_isDigit _ h3, digitChar_isDigit _ h4, digitChar_isDigit _ h5,
      digitChar_isDigit _ h6⟩,
    digitChar_toNat _ h1, digitChar_toNat _ h2, digitChar_toNat _ h3,
    digitChar_toNat _ h4, digitChar_toNat _ h5, digitChar_toNat _ h6]
  congr 1
  omega

/-- Unfolding equation of `fromisoformat` on a list with at least the
nineteen fixed-width characters. -/
theorem fromisoformat_cons (y1 y2 y3 y4 c5 o1 o2 c8 d1 d2 c11 h1 h2 c14 i1 i2 c17
    s1 s2 : Char) (rest : List Char) :
    fromisoformat (y1 :: y2 :: y3 :: y4 :: c5 :: o1 :: o2 :: c8 :: d1 :: d2 :: c11 ::
        h1 :: h2 :: c14 :: i1 :: i2 :: c17 :: s1 :: s2 :: rest) =
      if c5 = '-' ∧ c8 = '-' ∧ c11 = 'T' ∧ c14 = ':' ∧ c17 = ':' then
        match parse4 y1 y2 y3 y4, parse2 o1 o2, parse2 d1 d2, parse2 h1 h2,
            parse2 i1 i2, parse2 s1 s2, parseFrac rest with
        | some y, some mo, some dy, some hr, some mi, some se, some mu =>
            some ⟨y, mo, dy, hr, mi, se, mu⟩
        | _, _, _, _, _, _, _ => none
      else none := rfl

/-- The empty fractional tail parses as microsecond zero. -/
theorem parseFrac_nil : parseFrac [] = some 0 := rfl

/-- A seven-character fractional tail parses by checking the dot. -/
theorem parseFrac_dot (cd u1 u2 u3 u4 u5 u6 : Char) :
    parseFrac [cd, u1, u2, u3, u4, u5, u6] =
      if cd = '.' then parse6 u1 u2 u3 u4 u5 u6 else none := rfl

/-- ISO-8601 printing then parsing is the identity on valid datetimes. -/
theorem fromisoformat_isoformat (d : DateTime) (h : ValidDateTime d) :
    fromisoformat (isoformat d) = some d := by
  obtain ⟨hy, hmo, hd, hh, hmi, hs, hmu⟩ := h
  obtain ⟨y, mo, dy, hr, mi, se, mu⟩ := d
  simp only at hy hmo hd hh hmi hs hmu
  by_cases h0 : mu = 0
  · subst h0
    simp only [isoformat, pad4, pad2, pad6, if_pos, List.cons_append, List.nil_append,
      List.append_nil]
    rw [fromisoformat_cons, if_pos ⟨rfl, rfl, rfl, rfl, rfl⟩, parse4_pad4 y hy,
      parse2_pad2 mo hmo, parse2_pad2 dy hd, parse2_pad2 hr hh, parse2_pad2 mi hmi,
      parse2_pad2 se hs, parseFrac_nil]
  · simp only [isoformat, pad4, pad2, pad6, if_neg h0, List.cons_append, List.nil_append,
      List.append_nil]
    rw [fromisoformat_cons, if_pos ⟨rfl, rfl, rfl, rfl, rfl⟩, parse4_pad4 y hy,
      parse2_pad2 mo hmo, parse2_pad2 dy hd, parse2_pad2 hr hh, parse2_pad2 mi hmi,
      parse2_pad2 se hs, parseFrac_dot, if_pos rfl, parse6_pad6 mu hmu]

/-- Serializing one position and loading it back is the identity when its
timestamps are in range. -/
theorem load_history_entry_to_dict (p : Position) (h : ValidPosition p) :
    load_history_entry (Position.to_dict p) = some p := by
  obtain ⟨h1, h2⟩ := h
  obtain ⟨o, ep, sz, et, eo, xp, xt, xo, pn⟩ := p
  cases xt with
  | none =>
      simp [load_history_entry, Position.to_dict, fromisoformat_isoformat et h1]
  | some t =>
      have hvt : ValidDateTime t := h2 t (by simp)
      simp [load_history_entry, Position.to_dict, fromisoformat_isoformat et h1,
        fromisoformat_isoformat t hvt]

/-- C9: persisting a history of closed positions through `to_dict` and
reloading it as at startup reconstructs the same list — every field,
including both ISO-8601 serialized timestamps, survives the round trip. -/
theorem C9_round_trip (hl : List Position) (hv : ∀ p ∈ hl, ValidPosition p) :
    load_history (hl.map Position.to_dict) = some hl := by
  induction hl with
  | nil => rfl
  | cons p rest ih =>
      have hp := hv p (List.mem_cons_self p rest)
      have hrest := ih (fun q hq => hv q (List.mem_cons_of_mem p hq))
      simp [load_history, load_history_entry_to_dict p hp, hrest]

/-- Witness for C9 at a concrete one-element history whose entry has both
timestamps (one with and one without microseconds). -/
theorem C9_round_trip_witness :
    load_history ([posEx].map Position.to_dict) = some [posEx] := by
  refine C9_round_trip [posEx] ?_
  intro p hp
  simp only [List.mem_singleton] at hp
  subst hp
  refine ⟨by decide, ?_⟩
  intro t ht
  simp only [posEx, Option.mem_some_iff] at ht
  subst ht
  decide

/-- Witness for C3: the worked exit example evaluated through the claim
theorem — a drop from 0.80 to 0.75 triggers the exit signal. -/
theorem C3_check_exit_signal_witness :
    check_exit_signal (exitExample (3/4)) = true :=
  (C3_check_exit_signal (exitExample (3/4))).2.1

/-- Witness for C8 at a concrete tracker and two concrete opens. -/
theorem C8_double_open_witness :
    (open_position (open_position trEmpty Outcome.UP (2/5) (5/2) none d0)
        Outcome.DOWN (1/2) 2 none d1).current_position
      = some { outcome := Outcome.DOWN, entry_price := 1/2, size := 2, entry_time := d1,
               entry_order_id := none } :=
  (C8_double_open trEmpty Outcome.UP Outcome.DOWN (2/5) (5/2) (1/2) 2 none none d0 d1).1
